import Mathlib

/-!
Shallow embedding of the story-generation pipeline of
`src/services/geminiService.ts` (function `generateStoryWithImage`), together
with the auxiliary length table (`lengthOptions`, lines 31-39) that the spec
calls `PlanResolver`.

Provider calls are modelled by an oracle (`Env`) giving, for each request the
pipeline can issue, the response the provider would return.  A run is then a
pure function from the form data and the oracle to a `RunTrace`: the ordered
list of requests issued, the ordered list of progress events emitted, and the
final result (`Except` an error).  Response payloads mirror the nested
optional shape the code traverses with optional chaining
(`candidates?.[0]?.content?.parts`); request payloads (the prompt strings and
the photo bytes) are abstracted to the request kind plus the scene index,
since no control flow of the source depends on them.
-/

namespace VecerniPohadka

/-- Inline binary payload of a response part: base64 data plus the media type
the provider declared for it (`inlineData: { data, mimeType }`). -/
structure InlineData where
  data : String
  mimeType : String
deriving DecidableEq, Repr

/-- One part of a response candidate's content; it may carry inline binary
data and/or text. -/
structure Part where
  inlineData : Option InlineData
  text : Option String
deriving DecidableEq, Repr

/-- Content of a response candidate; the `parts` array may be absent. -/
structure Content where
  parts : Option (List Part)
deriving DecidableEq, Repr

/-- One response candidate; its `content` may be absent. -/
structure Candidate where
  content : Option Content
deriving DecidableEq, Repr

/-- A provider response: an optional array of candidates. -/
structure GenResponse where
  candidates : Option (List Candidate)
deriving DecidableEq, Repr

/-- The optional chain `r.candidates?.[0]?.content?.parts` used at lines
107, 120 and 165 of `geminiService.ts`. -/
def respParts (r : GenResponse) : Option (List Part) :=
  ((r.candidates.bind List.head?).bind Candidate.content).bind Content.parts

/-- The parts actually carried by a response: the parts list when present,
`[]` otherwise.  A response "has no content parts" precisely when this list
is empty. -/
def contentParts (r : GenResponse) : List Part :=
  (respParts r).getD []

/-- The form data (`StoryFormData` in `types.ts`). -/
structure StoryFormData where
  name : String
  character : String
  setting : String
  object : String
  storyLength : String
deriving DecidableEq, Repr

/-- A progress callback payload (`ProgressUpdate` in `types.ts`). -/
structure ProgressUpdate where
  step : Nat
  totalSteps : Nat
  message : String
deriving DecidableEq, Repr

/-- The assembled result (`StoryResult` in `types.ts`). -/
structure StoryResult where
  story : String
  scenes : List String
  imageUrls : List String
  audioBase64 : Option String
deriving DecidableEq, Repr

/-- One row of the `lengthOptions` table: scene count and word budget. -/
structure Plan where
  scenes : Nat
  words : Nat
deriving DecidableEq, Repr

/-- The `lengthOptions` lookup table (lines 31-36): keys are the minute
values of the length selector; a missing key yields no plan. -/
def lengthOptions (key : String) : Option Plan :=
  if key = "5" then some ⟨6, 400⟩
  else if key = "10" then some ⟨8, 800⟩
  else if key = "15" then some ⟨10, 1200⟩
  else if key = "20" then some ⟨12, 1600⟩
  else none

namespace PlanResolver

/-- Line 37: `lengthOptions[formData.storyLength] || lengthOptions['5']`.
The fallback `lengthOptions['5']` is the plan `⟨6, 400⟩`. -/
def resolve (tier : String) : Plan :=
  (lengthOptions tier).getD ⟨6, 400⟩

end PlanResolver

/-- The kinds of provider requests the pipeline issues.  Image requests are
tagged with the scene index they belong to, and with whether the reference
photo was attached (the conditioned attempt) or dropped (the fallback). -/
inductive Request where
  | textReq : Request
  | imgReqWithPhoto : Nat → Request
  | imgReqWithoutPhoto : Nat → Request
  | audioReq : Request
deriving DecidableEq, Repr

/-- The provider oracle: the responses each request of a run would receive.
`textScenes` is the already-parsed `scenes` field of the text response
(`none` when the field is absent). -/
structure Env where
  textScenes : Option (List String)
  imgWithPhoto : Nat → GenResponse
  imgWithoutPhoto : Nat → GenResponse
  audio : GenResponse

/-- The terminal errors of the pipeline, named after the spec's taxonomy.
`textGenerationError` is the throw at line 78, `imageGenerationError` the
throw at line 125, `imagePayloadMissingError` the throw at line 138, and
`sceneImageCountMismatch` the defensive throw at line 144. -/
inductive PipelineError where
  | textGenerationError : PipelineError
  | imageGenerationError : PipelineError
  | imagePayloadMissingError : PipelineError
  | sceneImageCountMismatch : PipelineError
deriving DecidableEq, Repr

/-- Observable trace of one run: requests issued in order, progress events
emitted in order, and the final result. -/
structure RunTrace where
  requests : List Request
  events : List ProgressUpdate
  result : Except PipelineError StoryResult
deriving Repr

/-- The loop at lines 129-136: the first part carrying inline data. -/
def firstInline : List Part → Option InlineData
  | [] => none
  | p :: rest =>
    match p.inlineData with
    | some d => some d
    | none => firstInline rest

/-- Output of processing one scene of the image loop. -/
structure SceneOut where
  requests : List Request
  events : List ProgressUpdate
  step : Nat
  result : Except PipelineError String
deriving Repr

/-- Output of the image loop (lines 88-141). -/
structure LoopOut where
  requests : List Request
  events : List ProgressUpdate
  step : Nat
  result : Except PipelineError (List String)
deriving Repr

/-- Message of the progress event emitted at line 90. -/
def paintMsg (i nS : Nat) : String := s!"Maluji obrázek {i + 1} z {nS}..."

/-- Message of the progress event emitted at line 140. -/
def doneMsg (i nS : Nat) : String := s!"Ilustrace {i + 1}/{nS} je hotová."

/-- Lines 128-140: scan the chosen candidate's parts for the first inline
payload; push a PNG data URL built from its raw data, or fail. -/
def finishScene (reqs : List Request) (tS nS i step : Nat) (ps : List Part) :
    SceneOut :=
  match firstInline ps with
  | none => ⟨reqs, [⟨step, tS, paintMsg i nS⟩], step,
      Except.error PipelineError.imagePayloadMissingError⟩
  | some d => ⟨reqs, [⟨step, tS, paintMsg i nS⟩, ⟨step + 1, tS, doneMsg i nS⟩],
      step + 1, Except.ok ("data:image/png;base64," ++ d.data)⟩

/-- One iteration of the image loop (lines 88-140): report progress, issue
the photo-conditioned request, fall back to the unconditioned request when
the optional chain `candidates?.[0]?.content?.parts` of the first response
is absent, fail when it is absent for both, and otherwise extract the first
inline payload.  (An empty parts array is a present, truthy value in the
source, so it does not trigger the fallback.) -/
def sceneStep (env : Env) (tS nS i step : Nat) (_scene : String) : SceneOut :=
  match respParts (env.imgWithPhoto i) with
  | some ps => finishScene [Request.imgReqWithPhoto i] tS nS i step ps
  | none =>
    match respParts (env.imgWithoutPhoto i) with
    | some ps =>
        finishScene [Request.imgReqWithPhoto i, Request.imgReqWithoutPhoto i]
          tS nS i step ps
    | none =>
        ⟨[Request.imgReqWithPhoto i, Request.imgReqWithoutPhoto i],
         [⟨step, tS, paintMsg i nS⟩], step,
         Except.error PipelineError.imageGenerationError⟩

/-- The per-scene loop of lines 88-141, threading the step counter and
accumulating requests, events and image URLs; a scene failure aborts the
remaining scenes. -/
def imageLoop (env : Env) (tS nS : Nat) : Nat → Nat → List String → LoopOut
  | _, step, [] => ⟨[], [], step, Except.ok []⟩
  | i, step, scene :: rest =>
    let o := sceneStep env tS nS i step scene
    match o.result with
    | Except.error e => ⟨o.requests, o.events, o.step, Except.error e⟩
    | Except.ok url =>
      let t := imageLoop env tS nS (i + 1) o.step rest
      ⟨o.requests ++ t.requests, o.events ++ t.events, t.step,
        match t.result with
        | Except.error e => Except.error e
        | Except.ok urls => Except.ok (url :: urls)⟩

/-- Line 165: `candidates?.[0]?.content?.parts?.[0]?.inlineData?.data` —
the inline data of the *first* part only. -/
def audioExtract (r : GenResponse) : Option String :=
  (((respParts r).bind List.head?).bind Part.inlineData).map InlineData.data

/-- `totalSteps` of a run (line 42): scene count plus one text step and one
audio step. -/
def totalStepsOf (form : StoryFormData) : Nat :=
  (PlanResolver.resolve form.storyLength).scenes + 2

/-- The two events every run emits before the scene loop: the step-0 report
at line 52 and the post-text increment at line 75 (which the source emits
*before* validating the scene count). -/
def startEvents (form : StoryFormData) : List ProgressUpdate :=
  [⟨0, totalStepsOf form, "Vymýšlím zápletku příběhu..."⟩,
   ⟨1, totalStepsOf form, "Příběh je napsaný, začínám ilustrovat..."⟩]

/-- Trace of a run that fails the scene-count validation at lines 77-79. -/
def textFailTrace (form : StoryFormData) : RunTrace :=
  ⟨[Request.textReq], startEvents form,
   Except.error PipelineError.textGenerationError⟩

/-- The image loop as invoked by the pipeline: scene indices from 0, the
step counter starting at 1 (the text step is already counted). -/
def theLoop (form : StoryFormData) (env : Env) (scenes : List String) :
    LoopOut :=
  imageLoop env (totalStepsOf form) (PlanResolver.resolve form.storyLength).scenes
    0 1 scenes

/-- Lines 83-173: everything after a validated text stage — the image loop,
the defensive image-count check (lines 143-145), and the audio stage. -/
def afterText (form : StoryFormData) (env : Env) (scenes : List String) :
    RunTrace :=
  let nS := (PlanResolver.resolve form.storyLength).scenes
  let L := theLoop form env scenes
  match L.result with
  | Except.error e =>
      ⟨Request.textReq :: L.requests, startEvents form ++ L.events,
       Except.error e⟩
  | Except.ok imageUrls =>
    if imageUrls.length ≠ nS then
      ⟨Request.textReq :: L.requests, startEvents form ++ L.events,
       Except.error PipelineError.sceneImageCountMismatch⟩
    else
      ⟨Request.textReq :: (L.requests ++ [Request.audioReq]),
       startEvents form ++
         (L.events ++
          [⟨L.step, nS + 2, "Nahrávám hlas vypravěče..."⟩,
           ⟨L.step + 1, nS + 2, "Vše je připraveno!"⟩]),
       Except.ok ⟨String.intercalate "\n\n" scenes, scenes, imageUrls,
                  audioExtract env.audio⟩⟩

/-- The whole pipeline `generateStoryWithImage` (lines 25-180) as a pure
function of the form data and the provider oracle.  Lines 73-79: take the
parsed `scenes` field and fail when it is absent or its length differs from
the plan's scene count (the progress event at line 75 is emitted first
either way). -/
def generateStoryWithImage (form : StoryFormData) (env : Env) : RunTrace :=
  match env.textScenes with
  | none => textFailTrace form
  | some scenes =>
    if scenes.length ≠ (PlanResolver.resolve form.storyLength).scenes then
      textFailTrace form
    else
      afterText form env scenes

/-- The chosen content of a scene's image step: the conditioned response's
parts when present, otherwise whatever the fallback response carries. -/
def effectiveParts (env : Env) (i : Nat) : Option (List Part) :=
  match respParts (env.imgWithPhoto i) with
  | some ps => some ps
  | none => respParts (env.imgWithoutPhoto i)

/-- Whether a run ended in the defensive image-count mismatch error. -/
def isSceneImageCountMismatch : Except PipelineError StoryResult → Bool
  | Except.error PipelineError.sceneImageCountMismatch => true
  | _ => false

/-- The requests one scene iteration issues: the conditioned request, plus
the fallback request exactly when the conditioned response's parts list is
absent. -/
def sceneReqs (env : Env) (i : Nat) : List Request :=
  if respParts (env.imgWithPhoto i) = none then
    [Request.imgReqWithPhoto i, Request.imgReqWithoutPhoto i]
  else
    [Request.imgReqWithPhoto i]

/-- Replace the declared media type of an inline payload, keeping its data. -/
def mapMimeInline (f : String → String) (d : InlineData) : InlineData :=
  ⟨d.data, f d.mimeType⟩

/-- Replace the declared media types inside a part. -/
def mapMimePart (f : String → String) (p : Part) : Part :=
  ⟨p.inlineData.map (mapMimeInline f), p.text⟩

/-- Replace the declared media types inside a content payload. -/
def mapMimeContent (f : String → String) (c : Content) : Content :=
  ⟨c.parts.map (List.map (mapMimePart f))⟩

/-- Replace the declared media types inside a candidate. -/
def mapMimeCand (f : String → String) (c : Candidate) : Candidate :=
  ⟨c.content.map (mapMimeContent f)⟩

/-- Replace the declared media types inside a whole response. -/
def mapMimeResp (f : String → String) (r : GenResponse) : GenResponse :=
  ⟨r.candidates.map (List.map (mapMimeCand f))⟩

/-- Replace the declared media types of every response the oracle returns. -/
def mapMimeEnv (f : String → String) (e : Env) : Env :=
  ⟨e.textScenes, fun i => mapMimeResp f (e.imgWithPhoto i),
   fun i => mapMimeResp f (e.imgWithoutPhoto i), mapMimeResp f e.audio⟩

/-! Concrete data used by the witnesses and counterexamples below. -/

/-- A part carrying inline data with the given payload, declared as PNG. -/
def okPart (s : String) : Part := ⟨some ⟨s, "image/png"⟩, none⟩

/-- A response with one candidate whose content carries the given parts. -/
def respOf (ps : List Part) : GenResponse := ⟨some [⟨some ⟨some ps⟩⟩]⟩

/-- A response with no candidates at all (the optional chain yields nothing). -/
def blankResp : GenResponse := ⟨none⟩

/-- A concrete form submission choosing the 5-minute (6-scene) length. -/
def form0 : StoryFormData :=
  ⟨"Anna", "malý dráček", "kouzelný les", "plyšový medvídek", "5"⟩

/-- An oracle for a fully successful 6-scene run. -/
def env0 : Env :=
  { textScenes := some ["s1", "s2", "s3", "s4", "s5", "s6"],
    imgWithPhoto := fun _ => respOf [okPart "IMG"],
    imgWithoutPhoto := fun _ => respOf [okPart "FB"],
    audio := respOf [⟨some ⟨"AUD", "audio/pcm"⟩, none⟩] }

/-- The result of the successful run driven by `env0`. -/
def res0 : StoryResult :=
  ⟨"s1\n\ns2\n\ns3\n\ns4\n\ns5\n\ns6",
   ["s1", "s2", "s3", "s4", "s5", "s6"],
   ["data:image/png;base64,IMG", "data:image/png;base64,IMG",
    "data:image/png;base64,IMG", "data:image/png;base64,IMG",
    "data:image/png;base64,IMG", "data:image/png;base64,IMG"],
   some "AUD"⟩

/-- An oracle whose conditioned image response for every scene carries a
present but *empty* parts array (`content.parts = []`). -/
def envEmptyParts : Env :=
  { textScenes := some ["s1", "s2", "s3", "s4", "s5", "s6"],
    imgWithPhoto := fun _ => respOf [],
    imgWithoutPhoto := fun _ => blankResp,
    audio := blankResp }

/-- An oracle whose image responses carry no content at all, for either
attempt of any scene. -/
def envBothBlank : Env :=
  { textScenes := some ["s1", "s2", "s3", "s4", "s5", "s6"],
    imgWithPhoto := fun _ => blankResp,
    imgWithoutPhoto := fun _ => blankResp,
    audio := blankResp }

/-- An oracle whose conditioned image responses carry content with a text
part but no inline binary data. -/
def envNoBinary : Env :=
  { textScenes := some ["s1", "s2", "s3", "s4", "s5", "s6"],
    imgWithPhoto := fun _ => respOf [⟨none, some "no image here"⟩],
    imgWithoutPhoto := fun _ => respOf [okPart "FB"],
    audio := blankResp }

/-- An oracle with no scenes field in the text response. -/
def envNoScenes : Env :=
  { textScenes := none,
    imgWithPhoto := fun _ => respOf [okPart "IMG"],
    imgWithoutPhoto := fun _ => respOf [okPart "FB"],
    audio := respOf [⟨some ⟨"AUD", "audio/pcm"⟩, none⟩] }

/-- An oracle whose audio response's *first* part carries no inline data
while its *second* part carries an audio payload. -/
def envLateAudio : Env :=
  { textScenes := some ["s1", "s2", "s3", "s4", "s5", "s6"],
    imgWithPhoto := fun _ => respOf [okPart "IMG"],
    imgWithoutPhoto := fun _ => respOf [okPart "FB"],
    audio := respOf [⟨none, some "intro text"⟩, ⟨some ⟨"AUD2", "audio/wav"⟩, none⟩] }

/-- The result of the successful run driven by `envLateAudio`: no audio is
stored although the response carries an audio payload. -/
def resLateAudio : StoryResult :=
  ⟨"s1\n\ns2\n\ns3\n\ns4\n\ns5\n\ns6",
   ["s1", "s2", "s3", "s4", "s5", "s6"],
   ["data:image/png;base64,IMG", "data:image/png;base64,IMG",
    "data:image/png;base64,IMG", "data:image/png;base64,IMG",
    "data:image/png;base64,IMG", "data:image/png;base64,IMG"],
   none⟩

/-! Basic lemmas about one scene iteration. -/

theorem effectiveParts_eq_none (env : Env) (i : Nat)
    (h1 : respParts (env.imgWithPhoto i) = none)
    (h2 : respParts (env.imgWithoutPhoto i) = none) :
    effectiveParts env i = none := by
  simp [effectiveParts, h1, h2]

theorem effectiveParts_of_photoNone (env : Env) (i : Nat)
    (h1 : respParts (env.imgWithPhoto i) = none) :
    effectiveParts env i = respParts (env.imgWithoutPhoto i) := by
  simp [effectiveParts, h1]

theorem effectiveParts_of_photoSome (env : Env) (i : Nat) (ps : List Part)
    (h1 : respParts (env.imgWithPhoto i) = some ps) :
    effectiveParts env i = some ps := by
  simp [effectiveParts, h1]

theorem sceneStep_eq_of_none (env : Env) (tS nS i step : Nat) (scene : String)
    (hE : effectiveParts env i = none) :
    sceneStep env tS nS i step scene =
      ⟨sceneReqs env i, [⟨step, tS, paintMsg i nS⟩], step,
       Except.error PipelineError.imageGenerationError⟩ := by
  cases h1 : respParts (env.imgWithPhoto i) with
  | some ps => rw [effectiveParts_of_photoSome env i ps h1] at hE; exact absurd hE (by simp)
  | none =>
    rw [effectiveParts_of_photoNone env i h1] at hE
    simp [sceneStep, sceneReqs, h1, hE]

theorem sceneStep_eq_of_missing (env : Env) (tS nS i step : Nat)
    (scene : String) (ps : List Part)
    (hE : effectiveParts env i = some ps) (hF : firstInline ps = none) :
    sceneStep env tS nS i step scene =
      ⟨sceneReqs env i, [⟨step, tS, paintMsg i nS⟩], step,
       Except.error PipelineError.imagePayloadMissingError⟩ := by
  cases h1 : respParts (env.imgWithPhoto i) with
  | some qs =>
    rw [effectiveParts_of_photoSome env i qs h1] at hE
    simp only [Option.some.injEq] at hE
    subst hE
    simp [sceneStep, sceneReqs, finishScene, h1, hF]
  | none =>
    rw [effectiveParts_of_photoNone env i h1] at hE
    simp [sceneStep, sceneReqs, finishScene, h1, hE, hF]

theorem sceneStep_eq_of_found (env : Env) (tS nS i step : Nat)
    (scene : String) (ps : List Part) (d : InlineData)
    (hE : effectiveParts env i = some ps) (hF : firstInline ps = some d) :
    sceneStep env tS nS i step scene =
      ⟨sceneReqs env i,
       [⟨step, tS, paintMsg i nS⟩, ⟨step + 1, tS, doneMsg i nS⟩],
       step + 1, Except.ok ("data:image/png;base64," ++ d.data)⟩ := by
  cases h1 : respParts (env.imgWithPhoto i) with
  | some qs =>
    rw [effectiveParts_of_photoSome env i qs h1] at hE
    simp only [Option.some.injEq] at hE
    subst hE
    simp [sceneStep, sceneReqs, finishScene, h1, hF]
  | none =>
    rw [effectiveParts_of_photoNone env i h1] at hE
    simp [sceneStep, sceneReqs, finishScene, h1, hE, hF]

/-- The three mutually exclusive outcomes a scene's image step can take. -/
theorem imageCase (env : Env) (i : Nat) :
    effectiveParts env i = none ∨
    (∃ ps, effectiveParts env i = some ps ∧ firstInline ps = none) ∨
    (∃ ps d, effectiveParts env i = some ps ∧ firstInline ps = some d) := by
  cases hE : effectiveParts env i with
  | none => exact Or.inl rfl
  | some ps =>
    cases hF : firstInline ps with
    | none => exact Or.inr (Or.inl ⟨ps, rfl, hF⟩)
    | some d => exact Or.inr (Or.inr ⟨ps, d, rfl, hF⟩)

theorem sceneStep_requests (env : Env) (tS nS i step : Nat) (scene : String) :
    (sceneStep env tS nS i step scene).requests = sceneReqs env i := by
  rcases imageCase env i with hE | ⟨ps, hE, hF⟩ | ⟨ps, d, hE, hF⟩
  · rw [sceneStep_eq_of_none env tS nS i step scene hE]
  · rw [sceneStep_eq_of_missing env tS nS i step scene ps hE hF]
  · rw [sceneStep_eq_of_found env tS nS i step scene ps d hE hF]

theorem mem_sceneReqs (env : Env) (i : Nat) (r : Request)
    (h : r ∈ sceneReqs env i) :
    r = Request.imgReqWithPhoto i ∨ r = Request.imgReqWithoutPhoto i := by
  unfold sceneReqs at h
  split at h
  · simpa using h
  · exact Or.inl (by simpa using h)

theorem withPhoto_mem_sceneReqs (env : Env) (i : Nat) :
    Request.imgReqWithPhoto i ∈ sceneReqs env i := by
  unfold sceneReqs; split <;> simp

theorem count_withoutPhoto_sceneReqs (env : Env) (i : Nat)
    (h : respParts (env.imgWithPhoto i) = none) :
    (sceneReqs env i).count (Request.imgReqWithoutPhoto i) = 1 := by
  simp [sceneReqs, h]

theorem count_withoutPhoto_sceneReqs_ne (env : Env) (i j : Nat) (h : j ≠ i) :
    (sceneReqs env i).count (Request.imgReqWithoutPhoto j) = 0 := by
  unfold sceneReqs
  split <;> simp [List.count_cons, h]

theorem sceneStep_ok (env : Env) (tS nS i step : Nat) (scene : String)
    (url : String)
    (h : (sceneStep env tS nS i step scene).result = Except.ok url) :
    ∃ ps d, effectiveParts env i = some ps ∧ firstInline ps = some d ∧
      url = "data:image/png;base64," ++ d.data ∧
      (sceneStep env tS nS i step scene).step = step + 1 ∧
      (sceneStep env tS nS i step scene).events =
        [⟨step, tS, paintMsg i nS⟩, ⟨step + 1, tS, doneMsg i nS⟩] := by
  rcases imageCase env i with hE | ⟨ps, hE, hF⟩ | ⟨ps, d, hE, hF⟩
  · rw [sceneStep_eq_of_none env tS nS i step scene hE] at h
    exact absurd h (by simp)
  · rw [sceneStep_eq_of_missing env tS nS i step scene ps hE hF] at h
    exact absurd h (by simp)
  · rw [sceneStep_eq_of_found env tS nS i step scene ps d hE hF] at h ⊢
    simp only [Except.ok.injEq] at h
    exact ⟨ps, d, hE, hF, h.symm, rfl, rfl⟩

theorem sceneStep_error (env : Env) (tS nS i step : Nat) (scene : String)
    (e : PipelineError)
    (h : (sceneStep env tS nS i step scene).result = Except.error e) :
    (sceneStep env tS nS i step scene).step = step ∧
    (sceneStep env tS nS i step scene).events = [⟨step, tS, paintMsg i nS⟩] := by
  rcases imageCase env i with hE | ⟨ps, hE, hF⟩ | ⟨ps, d, hE, hF⟩
  · rw [sceneStep_eq_of_none env tS nS i step scene hE]
    exact ⟨rfl, rfl⟩
  · rw [sceneStep_eq_of_missing env tS nS i step scene ps hE hF]
    exact ⟨rfl, rfl⟩
  · rw [sceneStep_eq_of_found env tS nS i step scene ps d hE hF] at h
    exact absurd h (by simp)

/-! Unfolding lemmas for the image loop. -/

theorem imageLoop_nil (env : Env) (tS nS i step : Nat) :
    imageLoop env tS nS i step [] = ⟨[], [], step, Except.ok []⟩ := rfl

theorem imageLoop_cons_error (env : Env) (tS nS i step : Nat)
    (scene : String) (rest : List String) (e : PipelineError)
    (h : (sceneStep env tS nS i step scene).result = Except.error e) :
    imageLoop env tS nS i step (scene :: rest) =
      ⟨(sceneStep env tS nS i step scene).requests,
       (sceneStep env tS nS i step scene).events,
       (sceneStep env tS nS i step scene).step, Except.error e⟩ := by
  simp only [imageLoop]
  rw [h]

theorem imageLoop_cons_ok (env : Env) (tS nS i step : Nat)
    (scene : String) (rest : List String) (url : String)
    (h : (sceneStep env tS nS i step scene).result = Except.ok url) :
    imageLoop env tS nS i step (scene :: rest) =
      ⟨(sceneStep env tS nS i step scene).requests ++
         (imageLoop env tS nS (i + 1)
           (sceneStep env tS nS i step scene).step rest).requests,
       (sceneStep env tS nS i step scene).events ++
         (imageLoop env tS nS (i + 1)
           (sceneStep env tS nS i step scene).step rest).events,
       (imageLoop env tS nS (i + 1)
         (sceneStep env tS nS i step scene).step rest).step,
       match (imageLoop env tS nS (i + 1)
               (sceneStep env tS nS i step scene).step rest).result with
       | Except.error e => Except.error e
       | Except.ok urls => Except.ok (url :: urls)⟩ := by
  simp only [imageLoop]
  rw [h]

/-- When the loop succeeds it yields one image URL per scene. -/
theorem imageLoop_ok_length (env : Env) (tS nS : Nat) :
    ∀ (l : List String) (i step : Nat) (urls : List String),
      (imageLoop env tS nS i step l).result = Except.ok urls →
      urls.length = l.length := by
  intro l
  induction l with
  | nil =>
    intro i step urls h
    rw [imageLoop_nil] at h
    simp only [Except.ok.injEq] at h
    simp [← h]
  | cons s rest ih =>
    intro i step urls h
    cases ho : (sceneStep env tS nS i step s).result with
    | error e =>
      rw [imageLoop_cons_error env tS nS i step s rest e ho] at h
      exact absurd h (by simp)
    | ok url =>
      rw [imageLoop_cons_ok env tS nS i step s rest url ho] at h
      simp only at h
      cases ht : (imageLoop env tS nS (i + 1)
          (sceneStep env tS nS i step s).step rest).result with
      | error e => rw [ht] at h; exact absurd h (by simp)
      | ok urls2 =>
        rw [ht] at h
        simp only [Except.ok.injEq] at h
        rw [← h]
        simp [ih (i + 1) (sceneStep env tS nS i step s).step urls2 ht]

/-- Every request the loop issues is an image request whose scene index lies
in the range of scenes the loop was given. -/
theorem imageLoop_mem_requests (env : Env) (tS nS : Nat) :
    ∀ (l : List String) (i step : Nat) (r : Request),
      r ∈ (imageLoop env tS nS i step l).requests →
      ∃ j, i ≤ j ∧ j < i + l.length ∧
        (r = Request.imgReqWithPhoto j ∨ r = Request.imgReqWithoutPhoto j) := by
  intro l
  induction l with
  | nil =>
    intro i step r h
    rw [imageLoop_nil] at h
    exact absurd h (by simp)
  | cons s rest ih =>
    intro i step r h
    cases ho : (sceneStep env tS nS i step s).result with
    | error e =>
      rw [imageLoop_cons_error env tS nS i step s rest e ho] at h
      simp only [sceneStep_requests] at h
      refine ⟨i, le_refl i, by simp, mem_sceneReqs env i r h⟩
    | ok url =>
      rw [imageLoop_cons_ok env tS nS i step s rest url ho] at h
      simp only [sceneStep_requests, List.mem_append] at h
      rcases h with h | h
      · exact ⟨i, le_refl i, by simp, mem_sceneReqs env i r h⟩
      · obtain ⟨j, hj1, hj2, hj3⟩ :=
          ih (i + 1) (sceneStep env tS nS i step s).step r h
        exact ⟨j, by omega, by simp at hj2 ⊢; omega, hj3⟩

/-- The loop's final step counter moves forward by at most one per scene. -/
theorem imageLoop_step_bounds (env : Env) (tS nS : Nat) :
    ∀ (l : List String) (i step : Nat),
      step ≤ (imageLoop env tS nS i step l).step ∧
      (imageLoop env tS nS i step l).step ≤ step + l.length := by
  intro l
  induction l with
  | nil => intro i step; rw [imageLoop_nil]; simp
  | cons s rest ih =>
    intro i step
    cases ho : (sceneStep env tS nS i step s).result with
    | error e =>
      rw [imageLoop_cons_error env tS nS i step s rest e ho]
      obtain ⟨h1, _⟩ := sceneStep_error env tS nS i step s e ho
      simp only [h1]
      simp
    | ok url =>
      rw [imageLoop_cons_ok env tS nS i step s rest url ho]
      obtain ⟨ps, d, _, _, _, h1, _⟩ := sceneStep_ok env tS nS i step s url ho
      simp only [h1]
      obtain ⟨h2, h3⟩ := ih (i + 1) (step + 1)
      constructor
      · omega
      · simp only [List.length_cons]; omega

/-- On success the loop's final step counter is the initial one plus the
number of scenes. -/
theorem imageLoop_ok_step (env : Env) (tS nS : Nat) :
    ∀ (l : List String) (i step : Nat) (urls : List String),
      (imageLoop env tS nS i step l).result = Except.ok urls →
      (imageLoop env tS nS i step l).step = step + l.length := by
  intro l
  induction l with
  | nil => intro i step urls _; rw [imageLoop_nil]; simp
  | cons s rest ih =>
    intro i step urls h
    cases ho : (sceneStep env tS nS i step s).result with
    | error e =>
      rw [imageLoop_cons_error env tS nS i step s rest e ho] at h
      exact absurd h (by simp)
    | ok url =>
      rw [imageLoop_cons_ok env tS nS i step s rest url ho] at h ⊢
      simp only at h ⊢
      cases ht : (imageLoop env tS nS (i + 1)
          (sceneStep env tS nS i step s).step rest).result with
      | error e => rw [ht] at h; exact absurd h (by simp)
      | ok urls2 =>
        obtain ⟨ps, d, _, _, _, h1, _⟩ := sceneStep_ok env tS nS i step s url ho
        have := ih (i + 1) (sceneStep env tS nS i step s).step urls2 ht
        rw [this, h1]
        simp only [List.length_cons]
        omega

/-- Every progress event the loop emits lies between the initial and the
final step counter and carries the fixed total. -/
theorem imageLoop_events_bound (env : Env) (tS nS : Nat) :
    ∀ (l : List String) (i step : Nat) (e : ProgressUpdate),
      e ∈ (imageLoop env tS nS i step l).events →
      step ≤ e.step ∧ e.step ≤ (imageLoop env tS nS i step l).step ∧
        e.totalSteps = tS := by
  intro l
  induction l with
  | nil => intro i step e h; rw [imageLoop_nil] at h; exact absurd h (by simp)
  | cons s rest ih =>
    intro i step e h
    cases ho : (sceneStep env tS nS i step s).result with
    | error er =>
      rw [imageLoop_cons_error env tS nS i step s rest er ho] at h ⊢
      obtain ⟨h1, h2⟩ := sceneStep_error env tS nS i step s er ho
      rw [h2] at h
      simp only [List.mem_singleton] at h
      rw [h, h1]
      exact ⟨le_refl step, le_refl step, rfl⟩
    | ok url =>
      rw [imageLoop_cons_ok env tS nS i step s rest url ho] at h ⊢
      obtain ⟨ps, d, _, _, _, h1, h2⟩ := sceneStep_ok env tS nS i step s url ho
      simp only [h1] at h ⊢
      have hstep := (imageLoop_step_bounds env tS nS rest (i + 1) (step + 1)).1
      simp only [List.mem_append] at h
      rcases h with h | h
      · rw [h2] at h
        simp only [List.mem_cons, List.mem_singleton] at h
        rcases h with h | h | h
        · subst h
          exact ⟨by simp, by simp; omega, by simp⟩
        · subst h
          exact ⟨by simp, by simp; omega, by simp⟩
        · exact absurd h (by simp)
      · obtain ⟨hb1, hb2, hb3⟩ := ih (i + 1) (step + 1) e h
        exact ⟨by omega, hb2, hb3⟩

/-- The loop never issues a request for a scene index below its own. -/
theorem not_mem_imageLoop_of_lt (env : Env) (tS nS : Nat) (l : List String)
    (i step k : Nat) (hk : k < i) :
    Request.imgReqWithPhoto k ∉ (imageLoop env tS nS i step l).requests ∧
    Request.imgReqWithoutPhoto k ∉ (imageLoop env tS nS i step l).requests := by
  constructor
  · intro hm
    obtain ⟨j, hj1, _, hj3⟩ := imageLoop_mem_requests env tS nS l i step _ hm
    rcases hj3 with h4 | h4
    · simp only [Request.imgReqWithPhoto.injEq] at h4
      omega
    · exact absurd h4 (by simp)
  · intro hm
    obtain ⟨j, hj1, _, hj3⟩ := imageLoop_mem_requests env tS nS l i step _ hm
    rcases hj3 with h4 | h4
    · exact absurd h4 (by simp)
    · simp only [Request.imgReqWithoutPhoto.injEq] at h4
      omega

/-- Membership of a conditioned request pins down the scene index range. -/
theorem withPhoto_mem_imageLoop_ge (env : Env) (tS nS : Nat)
    (l : List String) (i step j : Nat)
    (h : Request.imgReqWithPhoto j ∈ (imageLoop env tS nS i step l).requests) :
    i ≤ j := by
  obtain ⟨k, hk1, _, hk3⟩ := imageLoop_mem_requests env tS nS l i step _ h
  rcases hk3 with h4 | h4
  · simp only [Request.imgReqWithPhoto.injEq] at h4
    omega
  · exact absurd h4 (by simp)

/-- Successive progress events of the loop carry non-decreasing steps. -/
theorem imageLoop_chain (env : Env) (tS nS : Nat) :
    ∀ (l : List String) (i step : Nat),
      List.Chain' (fun a b => a.step ≤ b.step)
        (imageLoop env tS nS i step l).events := by
  intro l
  induction l with
  | nil => intro i step; rw [imageLoop_nil]; simp
  | cons s rest ih =>
    intro i step
    cases ho : (sceneStep env tS nS i step s).result with
    | error e =>
      rw [imageLoop_cons_error env tS nS i step s rest e ho]
      obtain ⟨_, h2⟩ := sceneStep_error env tS nS i step s e ho
      simp only [h2]
      simp
    | ok url =>
      rw [imageLoop_cons_ok env tS nS i step s rest url ho]
      obtain ⟨ps, d, _, _, _, h1, h2⟩ := sceneStep_ok env tS nS i step s url ho
      simp only [h1, h2]
      rw [List.chain'_append]
      refine ⟨by simp, ih (i + 1) (step + 1), ?_⟩
      intro x hx y hy
      simp only [List.getLast?_cons_cons, List.getLast?_singleton,
        Option.mem_def, Option.some.injEq] at hx
      have hy2 := List.mem_of_mem_head? hy
      obtain ⟨hb1, _, _⟩ :=
        imageLoop_events_bound env tS nS rest (i + 1) (step + 1) y hy2
      rw [← hx]
      simpa using hb1

/-- When a scene's conditioned response lacks a parts list and the loop
reached that scene, the unconditioned fallback for it is issued exactly
once. -/
theorem imageLoop_fallback_count (env : Env) (tS nS : Nat) :
    ∀ (l : List String) (i step j : Nat),
      Request.imgReqWithPhoto j ∈ (imageLoop env tS nS i step l).requests →
      respParts (env.imgWithPhoto j) = none →
      (imageLoop env tS nS i step l).requests.count
        (Request.imgReqWithoutPhoto j) = 1 := by
  intro l
  induction l with
  | nil =>
    intro i step j h _
    rw [imageLoop_nil] at h
    exact absurd h (by simp)
  | cons s rest ih =>
    intro i step j h hj
    cases ho : (sceneStep env tS nS i step s).result with
    | error e =>
      rw [imageLoop_cons_error env tS nS i step s rest e ho] at h ⊢
      simp only [sceneStep_requests] at h ⊢
      have hji : j = i := by
        rcases mem_sceneReqs env i _ h with h2 | h2
        · simpa using h2
        · exact absurd h2 (by simp)
      subst hji
      exact count_withoutPhoto_sceneReqs env j hj
    | ok url =>
      rw [imageLoop_cons_ok env tS nS i step s rest url ho] at h ⊢
      obtain ⟨ps, d, _, _, _, h1, _⟩ := sceneStep_ok env tS nS i step s url ho
      simp only [sceneStep_requests, h1] at h ⊢
      rw [List.count_append]
      by_cases hji : j = i
      · subst hji
        have htail : Request.imgReqWithoutPhoto j ∉
            (imageLoop env tS nS (j + 1) (step + 1) rest).requests :=
          (not_mem_imageLoop_of_lt env tS nS rest (j + 1) (step + 1) j
            (by omega)).2
        rw [List.count_eq_zero.mpr htail, count_withoutPhoto_sceneReqs env j hj]
      · have hmem : Request.imgReqWithPhoto j ∈
            (imageLoop env tS nS (i + 1) (step + 1) rest).requests := by
          rcases List.mem_append.mp h with h2 | h2
          · rcases mem_sceneReqs env i _ h2 with h3 | h3
            · simp only [Request.imgReqWithPhoto.injEq] at h3
              exact absurd h3 hji
            · exact absurd h3 (by simp)
          · exact h2
        rw [count_withoutPhoto_sceneReqs_ne env i j hji,
          ih (i + 1) (step + 1) j hmem hj]

/-- When both attempts for a reached scene lack a parts list, the loop fails
with the image-generation error and issues no request for any later scene. -/
theorem imageLoop_bothFail (env : Env) (tS nS : Nat) :
    ∀ (l : List String) (i step j : Nat),
      Request.imgReqWithPhoto j ∈ (imageLoop env tS nS i step l).requests →
      respParts (env.imgWithPhoto j) = none →
      respParts (env.imgWithoutPhoto j) = none →
      (imageLoop env tS nS i step l).result =
        Except.error PipelineError.imageGenerationError ∧
      ∀ k, j < k →
        Request.imgReqWithPhoto k ∉ (imageLoop env tS nS i step l).requests ∧
        Request.imgReqWithoutPhoto k ∉ (imageLoop env tS nS i step l).requests := by
  intro l
  induction l with
  | nil =>
    intro i step j h _ _
    rw [imageLoop_nil] at h
    exact absurd h (by simp)
  | cons s rest ih =>
    intro i step j h hj1 hj2
    have hEj : effectiveParts env j = none := effectiveParts_eq_none env j hj1 hj2
    cases ho : (sceneStep env tS nS i step s).result with
    | error e =>
      rw [imageLoop_cons_error env tS nS i step s rest e ho] at h ⊢
      simp only [sceneStep_requests] at h ⊢
      have hji : j = i := by
        rcases mem_sceneReqs env i _ h with h2 | h2
        · simpa using h2
        · exact absurd h2 (by simp)
      subst hji
      have hstep := sceneStep_eq_of_none env tS nS j step s hEj
      rw [hstep] at ho
      simp only [Except.error.injEq] at ho
      refine ⟨by rw [← ho], ?_⟩
      intro k hk
      constructor
      · intro hm
        rcases mem_sceneReqs env j _ hm with h4 | h4
        · simp only [Request.imgReqWithPhoto.injEq] at h4
          omega
        · exact absurd h4 (by simp)
      · intro hm
        rcases mem_sceneReqs env j _ hm with h4 | h4
        · exact absurd h4 (by simp)
        · simp only [Request.imgReqWithoutPhoto.injEq] at h4
          omega
    | ok url =>
      by_cases hji : j = i
      · subst hji
        obtain ⟨ps, d, hE, _, _, _, _⟩ := sceneStep_ok env tS nS j step s url ho
        rw [hEj] at hE
        exact absurd hE (by simp)
      · rw [imageLoop_cons_ok env tS nS i step s rest url ho] at h ⊢
        obtain ⟨ps, d, _, _, _, h1, _⟩ := sceneStep_ok env tS nS i step s url ho
        simp only [sceneStep_requests, h1] at h ⊢
        have hmem : Request.imgReqWithPhoto j ∈
            (imageLoop env tS nS (i + 1) (step + 1) rest).requests := by
          rcases List.mem_append.mp h with h2 | h2
          · rcases mem_sceneReqs env i _ h2 with h3 | h3
            · simp only [Request.imgReqWithPhoto.injEq] at h3
              exact absurd h3 hji
            · exact absurd h3 (by simp)
          · exact h2
        have hjge : i + 1 ≤ j :=
          withPhoto_mem_imageLoop_ge env tS nS rest (i + 1) (step + 1) j hmem
        obtain ⟨hr, hk⟩ := ih (i + 1) (step + 1) j hmem hj1 hj2
        constructor
        · rw [hr]
        · intro k hkk
          obtain ⟨hka, hkb⟩ := hk k hkk
          constructor
          · intro hmm
            rcases List.mem_append.mp hmm with h5 | h5
            · rcases mem_sceneReqs env i _ h5 with h6 | h6
              · simp only [Request.imgReqWithPhoto.injEq] at h6
                omega
              · exact absurd h6 (by simp)
            · exact hka h5
          · intro hmm
            rcases List.mem_append.mp hmm with h5 | h5
            · rcases mem_sceneReqs env i _ h5 with h6 | h6
              · exact absurd h6 (by simp)
              · simp only [Request.imgReqWithoutPhoto.injEq] at h6
                omega
            · exact hkb h5

/-- When a reached scene's chosen content carries no inline binary part, the
loop fails with the payload-missing error. -/
theorem imageLoop_payloadMissing (env : Env) (tS nS : Nat) :
    ∀ (l : List String) (i step j : Nat) (ps : List Part),
      Request.imgReqWithPhoto j ∈ (imageLoop env tS nS i step l).requests →
      effectiveParts env j = some ps →
      firstInline ps = none →
      (imageLoop env tS nS i step l).result =
        Except.error PipelineError.imagePayloadMissingError := by
  intro l
  induction l with
  | nil =>
    intro i step j ps h _ _
    rw [imageLoop_nil] at h
    exact absurd h (by simp)
  | cons s rest ih =>
    intro i step j ps h hE hF
    cases ho : (sceneStep env tS nS i step s).result with
    | error e =>
      rw [imageLoop_cons_error env tS nS i step s rest e ho] at h ⊢
      simp only [sceneStep_requests] at h ⊢
      have hji : j = i := by
        rcases mem_sceneReqs env i _ h with h2 | h2
        · simpa using h2
        · exact absurd h2 (by simp)
      subst hji
      have hstep := sceneStep_eq_of_missing env tS nS j step s ps hE hF
      rw [hstep] at ho
      simp only [Except.error.injEq] at ho
      rw [← ho]
    | ok url =>
      by_cases hji : j = i
      · subst hji
        obtain ⟨ps2, d, hE2, hF2, _, _, _⟩ := sceneStep_ok env tS nS j step s url ho
        rw [hE] at hE2
        simp only [Option.some.injEq] at hE2
        rw [← hE2] at hF2
        rw [hF] at hF2
        exact absurd hF2 (by simp)
      · rw [imageLoop_cons_ok env tS nS i step s rest url ho] at h ⊢
        obtain ⟨ps2, d, _, _, _, h1, _⟩ := sceneStep_ok env tS nS i step s url ho
        simp only [sceneStep_requests, h1] at h ⊢
        have hmem : Request.imgReqWithPhoto j ∈
            (imageLoop env tS nS (i + 1) (step + 1) rest).requests := by
          rcases List.mem_append.mp h with h2 | h2
          · rcases mem_sceneReqs env i _ h2 with h3 | h3
            · simp only [Request.imgReqWithPhoto.injEq] at h3
              exact absurd h3 hji
            · exact absurd h3 (by simp)
          · exact h2
        rw [ih (i + 1) (step + 1) j ps hmem hE hF]

/-- On success, the k-th stored URL is the PNG data URL built from the first
inline payload of scene k's chosen content. -/
theorem imageLoop_ok_nth (env : Env) (tS nS : Nat) :
    ∀ (l : List String) (i step : Nat) (urls : List String),
      (imageLoop env tS nS i step l).result = Except.ok urls →
      ∀ k, k < l.length →
        ∃ ps d, effectiveParts env (i + k) = some ps ∧
          firstInline ps = some d ∧
          urls[k]? = some ("data:image/png;base64," ++ d.data) := by
  intro l
  induction l with
  | nil =>
    intro i step urls _ k hk
    exact absurd hk (by simp)
  | cons s rest ih =>
    intro i step urls h k hk
    cases ho : (sceneStep env tS nS i step s).result with
    | error e =>
      rw [imageLoop_cons_error env tS nS i step s rest e ho] at h
      exact absurd h (by simp)
    | ok url =>
      rw [imageLoop_cons_ok env tS nS i step s rest url ho] at h
      simp only at h
      cases ht : (imageLoop env tS nS (i + 1)
          (sceneStep env tS nS i step s).step rest).result with
      | error e => rw [ht] at h; exact absurd h (by simp)
      | ok urls2 =>
        rw [ht] at h
        simp only [Except.ok.injEq] at h
        obtain ⟨ps, d, hE, hF, hu, _, _⟩ := sceneStep_ok env tS nS i step s url ho
        cases k with
        | zero =>
          refine ⟨ps, d, by simpa using hE, hF, ?_⟩
          rw [← h]
          simp [hu]
        | succ k2 =>
          have hk2 : k2 < rest.length := by simp at hk; omega
          obtain ⟨ps2, d2, hE2, hF2, hu2⟩ :=
            ih (i + 1) (sceneStep env tS nS i step s).step urls2 ht k2 hk2
          refine ⟨ps2, d2, ?_, hF2, ?_⟩
          · have : i + (k2 + 1) = i + 1 + k2 := by omega
            rw [this]
            exact hE2
          · rw [← h]
            simpa using hu2

/-- A loop failure is one of the two image-stage errors. -/
theorem sceneStep_error_kind (env : Env) (tS nS i step : Nat) (scene : String)
    (e : PipelineError)
    (ho : (sceneStep env tS nS i step scene).result = Except.error e) :
    e = PipelineError.imageGenerationError ∨
    e = PipelineError.imagePayloadMissingError := by
  rcases imageCase env i with hE | ⟨ps, hE, hF⟩ | ⟨ps, d, hE, hF⟩
  · rw [sceneStep_eq_of_none env tS nS i step scene hE] at ho
    simp only [Except.error.injEq] at ho
    exact Or.inl ho.symm
  · rw [sceneStep_eq_of_missing env tS nS i step scene ps hE hF] at ho
    simp only [Except.error.injEq] at ho
    exact Or.inr ho.symm
  · rw [sceneStep_eq_of_found env tS nS i step scene ps d hE hF] at ho
    exact absurd ho (by simp)

theorem imageLoop_error_kind (env : Env) (tS nS : Nat) :
    ∀ (l : List String) (i step : Nat) (e : PipelineError),
      (imageLoop env tS nS i step l).result = Except.error e →
      e = PipelineError.imageGenerationError ∨
      e = PipelineError.imagePayloadMissingError := by
  intro l
  induction l with
  | nil =>
    intro i step e h
    rw [imageLoop_nil] at h
    exact absurd h (by simp)
  | cons s rest ih =>
    intro i step e h
    cases ho : (sceneStep env tS nS i step s).result with
    | error e2 =>
      rw [imageLoop_cons_error env tS nS i step s rest e2 ho] at h
      simp only [Except.error.injEq] at h
      rw [← h]
      exact sceneStep_error_kind env tS nS i step s e2 ho
    | ok url =>
      rw [imageLoop_cons_ok env tS nS i step s rest url ho] at h
      simp only at h
      cases ht : (imageLoop env tS nS (i + 1)
          (sceneStep env tS nS i step s).step rest).result with
      | error e2 =>
        rw [ht] at h
        simp only [Except.error.injEq] at h
        rw [← h]
        exact ih (i + 1) (sceneStep env tS nS i step s).step e2 ht
      | ok urls2 =>
        rw [ht] at h
        exact absurd h (by simp)

/-! Unfolding lemmas for the whole pipeline. -/

theorem run_textNone (form : StoryFormData) (env : Env)
    (h : env.textScenes = none) :
    generateStoryWithImage form env = textFailTrace form := by
  simp [generateStoryWithImage, h]

theorem run_badLen (form : StoryFormData) (env : Env) (scenes : List String)
    (h : env.textScenes = some scenes)
    (h2 : scenes.length ≠ (PlanResolver.resolve form.storyLength).scenes) :
    generateStoryWithImage form env = textFailTrace form := by
  simp [generateStoryWithImage, h, h2]

theorem run_goodLen (form : StoryFormData) (env : Env) (scenes : List String)
    (h : env.textScenes = some scenes)
    (h2 : scenes.length = (PlanResolver.resolve form.storyLength).scenes) :
    generateStoryWithImage form env = afterText form env scenes := by
  simp [generateStoryWithImage, h, h2]

theorem run_cases (form : StoryFormData) (env : Env) :
    (generateStoryWithImage form env = textFailTrace form) ∨
    (∃ scenes, env.textScenes = some scenes ∧
      scenes.length = (PlanResolver.resolve form.storyLength).scenes ∧
      generateStoryWithImage form env = afterText form env scenes) := by
  cases h : env.textScenes with
  | none => exact Or.inl (run_textNone form env h)
  | some scenes =>
    by_cases h2 : scenes.length = (PlanResolver.resolve form.storyLength).scenes
    · exact Or.inr ⟨scenes, rfl, h2, run_goodLen form env scenes h h2⟩
    · exact Or.inl (run_badLen form env scenes h h2)

theorem afterText_error (form : StoryFormData) (env : Env)
    (scenes : List String) (e : PipelineError)
    (hL : (theLoop form env scenes).result = Except.error e) :
    afterText form env scenes =
      ⟨Request.textReq :: (theLoop form env scenes).requests,
       startEvents form ++ (theLoop form env scenes).events,
       Except.error e⟩ := by
  simp only [afterText]
  rw [hL]

theorem afterText_ok (form : StoryFormData) (env : Env)
    (scenes : List String) (urls : List String)
    (hlen : scenes.length = (PlanResolver.resolve form.storyLength).scenes)
    (hL : (theLoop form env scenes).result = Except.ok urls) :
    afterText form env scenes =
      ⟨Request.textReq ::
         ((theLoop form env scenes).requests ++ [Request.audioReq]),
       startEvents form ++
         ((theLoop form env scenes).events ++
          [⟨(theLoop form env scenes).step,
            (PlanResolver.resolve form.storyLength).scenes + 2,
            "Nahrávám hlas vypravěče..."⟩,
           ⟨(theLoop form env scenes).step + 1,
            (PlanResolver.resolve form.storyLength).scenes + 2,
            "Vše je připraveno!"⟩]),
       Except.ok ⟨String.intercalate "\n\n" scenes, scenes, urls,
                  audioExtract env.audio⟩⟩ := by
  have hul : urls.length = scenes.length :=
    imageLoop_ok_length env (totalStepsOf form)
      (PlanResolver.resolve form.storyLength).scenes scenes 0 1 urls hL
  simp only [afterText, hL]
  rw [if_neg (by rw [hul, hlen]; simp)]

/-- Inversion of a successful run: the text stage supplied exactly the
planned number of scenes, the loop succeeded, and the result fields are
determined. -/
theorem run_ok_inversion (form : StoryFormData) (env : Env)
    (res : StoryResult)
    (h : (generateStoryWithImage form env).result = Except.ok res) :
    ∃ scenes urls,
      env.textScenes = some scenes ∧
      scenes.length = (PlanResolver.resolve form.storyLength).scenes ∧
      (theLoop form env scenes).result = Except.ok urls ∧
      res = ⟨String.intercalate "\n\n" scenes, scenes, urls,
             audioExtract env.audio⟩ := by
  rcases run_cases form env with hr | ⟨scenes, hs, hlen, hr⟩
  · rw [hr] at h
    exact absurd h (by simp [textFailTrace])
  · rw [hr] at h
    cases hL : (theLoop form env scenes).result with
    | error e =>
      rw [afterText_error form env scenes e hL] at h
      exact absurd h (by simp)
    | ok urls =>
      rw [afterText_ok form env scenes urls hlen hL] at h
      simp only [Except.ok.injEq] at h
      exact ⟨scenes, urls, hs, hlen, hL, h.symm⟩

theorem mem_of_head?Mem {α : Type} (l : List α) (y : α) (h : y ∈ l.head?) :
    y ∈ l := by
  cases l with
  | nil => exact absurd h (by simp)
  | cons a t =>
    simp only [List.head?_cons, Option.mem_def, Option.some.injEq] at h
    rw [← h]
    exact List.mem_cons_self a t

theorem startEvents_bound (form : StoryFormData) (e : ProgressUpdate)
    (h : e ∈ startEvents form) :
    e.step ≤ 1 ∧ e.totalSteps = totalStepsOf form := by
  simp only [startEvents, List.mem_cons, List.not_mem_nil, or_false] at h
  rcases h with h | h
  · subst h; exact ⟨by simp, rfl⟩
  · subst h; exact ⟨le_refl 1, rfl⟩

/-! The claims. -/

/-- C1: for every successful run, the returned scenes, the returned images
and the plan's scene count have equal length, and the returned full text is
the scenes joined in order with a blank-line separator. -/
theorem claim_C1 (form : StoryFormData) (env : Env) (res : StoryResult)
    (h : (generateStoryWithImage form env).result = Except.ok res) :
    res.scenes.length = (PlanResolver.resolve form.storyLength).scenes ∧
    res.imageUrls.length = (PlanResolver.resolve form.storyLength).scenes ∧
    res.story = String.intercalate "\n\n" res.scenes := by
  obtain ⟨scenes, urls, _, hlen, hL, hres⟩ := run_ok_inversion form env res h
  subst hres
  refine ⟨hlen, ?_, rfl⟩
  have hul : urls.length = scenes.length :=
    imageLoop_ok_length env (totalStepsOf form)
      (PlanResolver.resolve form.storyLength).scenes scenes 0 1 urls hL
  exact hul.trans hlen

/-- Witness for C1: the successful 6-scene run driven by `env0`. -/
theorem claim_C1_witness :
    (generateStoryWithImage form0 env0).result = Except.ok res0 ∧
    (res0.scenes.length = (PlanResolver.resolve form0.storyLength).scenes ∧
     res0.imageUrls.length = (PlanResolver.resolve form0.storyLength).scenes ∧
     res0.story = String.intercalate "\n\n" res0.scenes) :=
  ⟨rfl, claim_C1 form0 env0 res0 rfl⟩

/-- C4: when the parsed text payload has no scenes field or a scene count
different from the plan's, the run fails with the text-generation error and
no image or audio request is ever issued. -/
theorem claim_C4 (form : StoryFormData) (env : Env)
    (h : env.textScenes = none ∨
      ∃ scenes, env.textScenes = some scenes ∧
        scenes.length ≠ (PlanResolver.resolve form.storyLength).scenes) :
    (generateStoryWithImage form env).result =
      Except.error PipelineError.textGenerationError ∧
    (∀ i, Request.imgReqWithPhoto i ∉ (generateStoryWithImage form env).requests ∧
      Request.imgReqWithoutPhoto i ∉ (generateStoryWithImage form env).requests) ∧
    Request.audioReq ∉ (generateStoryWithImage form env).requests := by
  have hr : generateStoryWithImage form env = textFailTrace form := by
    rcases h with h | ⟨scenes, hs, hlen⟩
    · exact run_textNone form env h
    · exact run_badLen form env scenes hs hlen
  rw [hr]
  refine ⟨rfl, ?_, by simp [textFailTrace]⟩
  intro i
  constructor <;> simp [textFailTrace]

/-- Witness for C4: a run whose text response has no scenes field. -/
theorem claim_C4_witness :
    (generateStoryWithImage form0 envNoScenes).result =
      Except.error PipelineError.textGenerationError ∧
    Request.imgReqWithPhoto 0 ∉ (generateStoryWithImage form0 envNoScenes).requests ∧
    Request.audioReq ∉ (generateStoryWithImage form0 envNoScenes).requests := by
  have h := claim_C4 form0 envNoScenes (Or.inl rfl)
  exact ⟨h.1, (h.2.1 0).1, h.2.2⟩

/-- C5: the plan resolver returns the documented pair for each of the four
supported tiers (the selector values "5", "10", "15", "20" are the short,
medium, long and extra-long tiers) and falls back to the short-tier plan on
any other value, never failing. -/
theorem claim_C5 :
    PlanResolver.resolve "5" = ⟨6, 400⟩ ∧
    PlanResolver.resolve "10" = ⟨8, 800⟩ ∧
    PlanResolver.resolve "15" = ⟨10, 1200⟩ ∧
    PlanResolver.resolve "20" = ⟨12, 1600⟩ ∧
    ∀ t : String, t ≠ "5" → t ≠ "10" → t ≠ "15" → t ≠ "20" →
      PlanResolver.resolve t = ⟨6, 400⟩ := by
  refine ⟨rfl, rfl, rfl, rfl, ?_⟩
  intro t h1 h2 h3 h4
  simp [PlanResolver.resolve, lengthOptions, h1, h2, h3, h4]

/-- Witness for C5: the unrecognized tier value "short" resolves to the
short-tier plan. -/
theorem claim_C5_witness :
    PlanResolver.resolve "short" = ⟨6, 400⟩ :=
  claim_C5.2.2.2.2 "short" (by decide) (by decide) (by decide) (by decide)

/-- C8: the defensive image-count mismatch branch is dead code — no run can
end in `sceneImageCountMismatch` — because a completed image loop always
produces exactly one image per scene it was given. -/
theorem claim_C8 (form : StoryFormData) (env : Env) :
    isSceneImageCountMismatch (generateStoryWithImage form env).result = false ∧
    ∀ (l : List String) (i step : Nat) (urls : List String),
      (imageLoop env (totalStepsOf form)
          (PlanResolver.resolve form.storyLength).scenes i step l).result =
        Except.ok urls →
      urls.length = l.length := by
  constructor
  · rcases run_cases form env with hr | ⟨scenes, hs, hlen, hr⟩
    · rw [hr]; rfl
    · rw [hr]
      cases hL : (theLoop form env scenes).result with
      | error e =>
        rw [afterText_error form env scenes e hL]
        rcases imageLoop_error_kind env (totalStepsOf form)
            (PlanResolver.resolve form.storyLength).scenes scenes 0 1 e hL
          with he | he <;> rw [he] <;> rfl
      | ok urls =>
        rw [afterText_ok form env scenes urls hlen hL]
        rfl
  · intro l i step urls h
    exact imageLoop_ok_length env (totalStepsOf form)
      (PlanResolver.resolve form.storyLength).scenes l i step urls h

/-- Witness for C8: the dead branch is not taken on the concrete successful
run, and a concrete completed loop yields one image for its one scene. -/
theorem claim_C8_witness :
    isSceneImageCountMismatch (generateStoryWithImage form0 env0).result = false ∧
    (["data:image/png;base64,IMG"] : List String).length =
      (["x"] : List String).length :=
  ⟨(claim_C8 form0 env0).1,
   (claim_C8 form0 env0).2 ["x"] 0 1 ["data:image/png;base64,IMG"] rfl⟩

/-- C9: on every run — successful or failed — every emitted progress event
satisfies `0 ≤ step ≤ totalSteps` (the lower bound is automatic for `ℕ`)
and carries the one fixed total `sceneCount + 2`. -/
theorem claim_C9 (form : StoryFormData) (env : Env) (e : ProgressUpdate)
    (h : e ∈ (generateStoryWithImage form env).events) :
    0 ≤ e.step ∧ e.step ≤ e.totalSteps ∧
    e.totalSteps = (PlanResolver.resolve form.storyLength).scenes + 2 := by
  refine ⟨Nat.zero_le _, ?_⟩
  rcases run_cases form env with hr | ⟨scenes, hs, hlen, hr⟩
  · rw [hr] at h
    simp only [textFailTrace] at h
    obtain ⟨h1, h2⟩ := startEvents_bound form e h
    rw [h2]
    exact ⟨by simp [totalStepsOf]; omega, rfl⟩
  · rw [hr] at h
    have hsb := imageLoop_step_bounds env (totalStepsOf form)
      (PlanResolver.resolve form.storyLength).scenes scenes 0 1
    cases hL : (theLoop form env scenes).result with
    | error e2 =>
      rw [afterText_error form env scenes e2 hL] at h
      simp only at h
      rcases List.mem_append.mp h with h | h
      · obtain ⟨h1, h2⟩ := startEvents_bound form e h
        rw [h2]
        exact ⟨by simp [totalStepsOf]; omega, rfl⟩
      · obtain ⟨_, hb2, hb3⟩ := imageLoop_events_bound env (totalStepsOf form)
          (PlanResolver.resolve form.storyLength).scenes scenes 0 1 e h
        rw [hb3]
        refine ⟨?_, rfl⟩
        have := hsb.2
        simp only [totalStepsOf] at this ⊢
        omega
    | ok urls =>
      rw [afterText_ok form env scenes urls hlen hL] at h
      simp only at h
      rcases List.mem_append.mp h with h | h
      · obtain ⟨h1, h2⟩ := startEvents_bound form e h
        rw [h2]
        exact ⟨by simp [totalStepsOf]; omega, rfl⟩
      · rcases List.mem_append.mp h with h | h
        · obtain ⟨_, hb2, hb3⟩ := imageLoop_events_bound env (totalStepsOf form)
            (PlanResolver.resolve form.storyLength).scenes scenes 0 1 e h
          rw [hb3]
          refine ⟨?_, rfl⟩
          have := hsb.2
          simp only [totalStepsOf] at this ⊢
          omega
        · have hLs : (theLoop form env scenes).step = 1 + scenes.length :=
            imageLoop_ok_step env (totalStepsOf form)
              (PlanResolver.resolve form.storyLength).scenes scenes 0 1 urls hL
          simp only [List.mem_cons, List.not_mem_nil, or_false] at h
          rcases h with h | h <;> subst h <;>
            exact ⟨by simp only; omega, rfl⟩

/-- Witness for C9: the very first event of the concrete successful run. -/
theorem claim_C9_witness :
    0 ≤ (⟨0, 8, "Vymýšlím zápletku příběhu..."⟩ : ProgressUpdate).step ∧
    (⟨0, 8, "Vymýšlím zápletku příběhu..."⟩ : ProgressUpdate).step ≤
      (⟨0, 8, "Vymýšlím zápletku příběhu..."⟩ : ProgressUpdate).totalSteps ∧
    (⟨0, 8, "Vymýšlím zápletku příběhu..."⟩ : ProgressUpdate).totalSteps =
      (PlanResolver.resolve form0.storyLength).scenes + 2 :=
  claim_C9 form0 env0 ⟨0, 8, "Vymýšlím zápletku příběhu..."⟩ (by decide)

theorem mem_of_getLast?Mem {α : Type} (l : List α) (y : α)
    (h : y ∈ l.getLast?) : y ∈ l := by
  obtain ⟨hne, heq⟩ := List.mem_getLast?_eq_getLast h
  rw [heq]
  exact List.getLast_mem hne

/-- C3: the steps carried by successive progress events of any run are
non-decreasing, and on success the final event's step equals the fixed
total `sceneCount + 2`. -/
theorem claim_C3 (form : StoryFormData) (env : Env) :
    List.Chain' (fun a b => a.step ≤ b.step)
      (generateStoryWithImage form env).events ∧
    ∀ res, (generateStoryWithImage form env).result = Except.ok res →
      ∃ e, (generateStoryWithImage form env).events.getLast? = some e ∧
        e.step = e.totalSteps ∧
        e.totalSteps = (PlanResolver.resolve form.storyLength).scenes + 2 := by
  constructor
  · rcases run_cases form env with hr | ⟨scenes, hs, hlen, hr⟩
    · rw [hr]
      simp [textFailTrace, startEvents]
    · rw [hr]
      have hsb := imageLoop_step_bounds env (totalStepsOf form)
        (PlanResolver.resolve form.storyLength).scenes scenes 0 1
      cases hL : (theLoop form env scenes).result with
      | error e2 =>
        rw [afterText_error form env scenes e2 hL]
        simp only
        rw [List.chain'_append]
        refine ⟨by simp [startEvents],
          imageLoop_chain env (totalStepsOf form)
            (PlanResolver.resolve form.storyLength).scenes scenes 0 1, ?_⟩
        intro x hx y hy
        simp only [startEvents, List.getLast?_cons_cons, List.getLast?_singleton,
          Option.mem_def, Option.some.injEq] at hx
        obtain ⟨hb1, _, _⟩ := imageLoop_events_bound env (totalStepsOf form)
          (PlanResolver.resolve form.storyLength).scenes scenes 0 1 y
          (mem_of_head?Mem _ y hy)
        rw [← hx]
        simpa using hb1
      | ok urls =>
        rw [afterText_ok form env scenes urls hlen hL]
        simp only
        rw [List.chain'_append]
        refine ⟨by simp [startEvents], ?_, ?_⟩
        · rw [List.chain'_append]
          refine ⟨imageLoop_chain env (totalStepsOf form)
            (PlanResolver.resolve form.storyLength).scenes scenes 0 1,
            by simp, ?_⟩
          intro x hx y hy
          obtain ⟨_, hb2, _⟩ := imageLoop_events_bound env (totalStepsOf form)
            (PlanResolver.resolve form.storyLength).scenes scenes 0 1 x
            (mem_of_getLast?Mem _ x hx)
          simp only [List.head?_cons, Option.mem_def, Option.some.injEq] at hy
          rw [← hy]
          simpa using hb2
        · intro x hx y hy
          simp only [startEvents, List.getLast?_cons_cons, List.getLast?_singleton,
            Option.mem_def, Option.some.injEq] at hx
          have hy2 := mem_of_head?Mem _ y hy
          rw [← hx]
          simp only
          rcases List.mem_append.mp hy2 with h5 | h5
          · obtain ⟨hb1, _, _⟩ := imageLoop_events_bound env (totalStepsOf form)
              (PlanResolver.resolve form.storyLength).scenes scenes 0 1 y h5
            exact hb1
          · have h1L : 1 ≤ (theLoop form env scenes).step := hsb.1
            simp only [List.mem_cons, List.not_mem_nil, or_false] at h5
            rcases h5 with h5 | h5 <;> subst h5 <;> simp only <;> omega
  · intro res h
    obtain ⟨scenes, urls, hs, hlen, hL, _⟩ := run_ok_inversion form env res h
    rw [run_goodLen form env scenes hs hlen,
      afterText_ok form env scenes urls hlen hL]
    simp only
    rw [← List.append_assoc, List.getLast?_append_cons,
      List.getLast?_cons_cons, List.getLast?_singleton]
    have hLs : (theLoop form env scenes).step = 1 + scenes.length :=
      imageLoop_ok_step env (totalStepsOf form)
        (PlanResolver.resolve form.storyLength).scenes scenes 0 1 urls hL
    exact ⟨_, rfl, by simp only; omega, rfl⟩

/-- Witness for C3: the concrete successful run's events are chained and its
final event reaches the total of 8 steps. -/
theorem claim_C3_witness :
    List.Chain' (fun a b => a.step ≤ b.step)
      (generateStoryWithImage form0 env0).events ∧
    ∃ e, (generateStoryWithImage form0 env0).events.getLast? = some e ∧
      e.step = e.totalSteps ∧
      e.totalSteps = (PlanResolver.resolve form0.storyLength).scenes + 2 :=
  ⟨(claim_C3 form0 env0).1, (claim_C3 form0 env0).2 res0 rfl⟩

/-- C6: whenever a scene's chosen response carries a parts list, the scene's
stored image is the PNG data URL built from the first part carrying inline
data, and if no part carries inline data the run fails with the
payload-missing error. -/
theorem claim_C6 (form : StoryFormData) (env : Env) :
    (∀ res, (generateStoryWithImage form env).result = Except.ok res →
      ∀ k, k < res.scenes.length →
        ∃ ps d, effectiveParts env k = some ps ∧ firstInline ps = some d ∧
          res.imageUrls[k]? = some ("data:image/png;base64," ++ d.data)) ∧
    (∀ j ps,
      Request.imgReqWithPhoto j ∈ (generateStoryWithImage form env).requests →
      effectiveParts env j = some ps → firstInline ps = none →
      (generateStoryWithImage form env).result =
        Except.error PipelineError.imagePayloadMissingError) := by
  constructor
  · intro res h k hk
    obtain ⟨scenes, urls, hs, hlen, hL, hres⟩ := run_ok_inversion form env res h
    subst hres
    simp only at hk ⊢
    have := imageLoop_ok_nth env (totalStepsOf form)
      (PlanResolver.resolve form.storyLength).scenes scenes 0 1 urls hL k hk
    simpa using this
  · intro j ps hmem hE hF
    rcases run_cases form env with hr | ⟨scenes, hs, hlen, hr⟩
    · rw [hr] at hmem
      exact absurd hmem (by simp [textFailTrace])
    · rw [hr] at hmem ⊢
      cases hL : (theLoop form env scenes).result with
      | error e2 =>
        rw [afterText_error form env scenes e2 hL] at hmem ⊢
        simp only [List.mem_cons] at hmem
        rcases hmem with hmem | hmem
        · exact absurd hmem (by simp)
        · have h2 : (theLoop form env scenes).result =
              Except.error PipelineError.imagePayloadMissingError :=
            imageLoop_payloadMissing env (totalStepsOf form)
              (PlanResolver.resolve form.storyLength).scenes scenes 0 1 j ps
              hmem hE hF
          rw [hL] at h2
          simp only [Except.error.injEq] at h2
          simp only
          rw [h2]
      | ok urls =>
        rw [afterText_ok form env scenes urls hlen hL] at hmem
        simp only [List.mem_cons, List.mem_append] at hmem
        rcases hmem with hmem | hmem | hmem
        · exact absurd hmem (by simp)
        · have h2 : (theLoop form env scenes).result =
              Except.error PipelineError.imagePayloadMissingError :=
            imageLoop_payloadMissing env (totalStepsOf form)
              (PlanResolver.resolve form.storyLength).scenes scenes 0 1 j ps
              hmem hE hF
          rw [hL] at h2
          exact absurd h2 (by simp)
        · exact absurd hmem (by simp)

/-- Witness for C6: the first scene's image of the concrete successful run,
and a run whose scene content carries text but no inline data failing with
the payload-missing error. -/
theorem claim_C6_witness :
    (∃ ps d, effectiveParts env0 0 = some ps ∧ firstInline ps = some d ∧
      res0.imageUrls[0]? = some ("data:image/png;base64," ++ d.data)) ∧
    (generateStoryWithImage form0 envNoBinary).result =
      Except.error PipelineError.imagePayloadMissingError := by
  constructor
  · exact (claim_C6 form0 env0).1 res0 rfl 0 (by decide)
  · exact (claim_C6 form0 envNoBinary).2 0 [⟨none, some "no image here"⟩]
      (by decide) rfl rfl

/-- Counterexample for C7: the narration response of `envLateAudio` does
contain an audio payload — its first inline payload, found in the second
part, is `"AUD2"` — yet the successful run stores no audio, because the
source reads only `parts?.[0]` (line 165) instead of searching the parts. -/
theorem claim_C7_counterexample :
    (generateStoryWithImage form0 envLateAudio).result =
      Except.ok resLateAudio ∧
    firstInline (contentParts envLateAudio.audio) =
      some ⟨"AUD2", "audio/wav"⟩ ∧
    resLateAudio.audioBase64 = none :=
  ⟨rfl, rfl, rfl⟩

/-- C7 (amended): the audio stage stores the inline data of the *first*
content part of the narration response, if any; and once the audio request
has been issued the run always succeeds, with the audio field simply absent
when that first part carries no inline data. -/
theorem claim_C7 (form : StoryFormData) (env : Env) :
    (∀ res, (generateStoryWithImage form env).result = Except.ok res →
      res.audioBase64 = audioExtract env.audio) ∧
    (Request.audioReq ∈ (generateStoryWithImage form env).requests →
      ∃ res, (generateStoryWithImage form env).result = Except.ok res ∧
        res.audioBase64 = audioExtract env.audio) := by
  constructor
  · intro res h
    obtain ⟨scenes, urls, _, _, _, hres⟩ := run_ok_inversion form env res h
    subst hres
    rfl
  · intro hmem
    rcases run_cases form env with hr | ⟨scenes, hs, hlen, hr⟩
    · rw [hr] at hmem
      exact absurd hmem (by simp [textFailTrace])
    · rw [hr] at hmem ⊢
      cases hL : (theLoop form env scenes).result with
      | error e2 =>
        rw [afterText_error form env scenes e2 hL] at hmem
        simp only [List.mem_cons] at hmem
        rcases hmem with hmem | hmem
        · exact absurd hmem (by simp)
        · obtain ⟨j, _, _, hj⟩ := imageLoop_mem_requests env (totalStepsOf form)
            (PlanResolver.resolve form.storyLength).scenes scenes 0 1 _ hmem
          rcases hj with hj | hj <;> exact absurd hj (by simp)
      | ok urls =>
        rw [afterText_ok form env scenes urls hlen hL]
        exact ⟨_, rfl, rfl⟩

/-- Witness for C7: on the concrete successful run the audio request was
issued, the run succeeded, and the stored audio is the first part's inline
data. -/
theorem claim_C7_witness :
    res0.audioBase64 = audioExtract env0.audio ∧
    ∃ res, (generateStoryWithImage form0 env0).result = Except.ok res := by
  have h := claim_C7 form0 env0
  refine ⟨h.1 res0 rfl, ?_⟩
  obtain ⟨res, hres, _⟩ := h.2 (by decide)
  exact ⟨res, hres⟩

/-- Counterexample for C2: for `envEmptyParts` the conditioned response of
scene 0 carries *zero* content parts (a present but empty parts array), yet
the fallback is never issued — the source's truthiness test at line 109
treats an empty array as content — and the run fails with the
payload-missing error, not the image-generation error. -/
theorem claim_C2_counterexample :
    contentParts (envEmptyParts.imgWithPhoto 0) = [] ∧
    contentParts (envEmptyParts.imgWithoutPhoto 0) = [] ∧
    (generateStoryWithImage form0 envEmptyParts).requests.count
      (Request.imgReqWithoutPhoto 0) = 0 ∧
    (generateStoryWithImage form0 envEmptyParts).result =
      Except.error PipelineError.imagePayloadMissingError :=
  ⟨rfl, rfl, by decide, rfl⟩

/-- C2 (amended): for every scene the loop reaches, if the conditioned
response's parts *list is absent*, the unconditioned fallback is issued
exactly once; if the fallback's parts list is also absent, the run fails
with the image-generation error and no request for any later scene is
issued. -/
theorem claim_C2 (form : StoryFormData) (env : Env) (i : Nat)
    (hmem : Request.imgReqWithPhoto i ∈
      (generateStoryWithImage form env).requests)
    (h1 : respParts (env.imgWithPhoto i) = none) :
    (generateStoryWithImage form env).requests.count
      (Request.imgReqWithoutPhoto i) = 1 ∧
    (respParts (env.imgWithoutPhoto i) = none →
      (generateStoryWithImage form env).result =
        Except.error PipelineError.imageGenerationError ∧
      ∀ k, i < k →
        Request.imgReqWithPhoto k ∉ (generateStoryWithImage form env).requests ∧
        Request.imgReqWithoutPhoto k ∉
          (generateStoryWithImage form env).requests) := by
  rcases run_cases form env with hr | ⟨scenes, hs, hlen, hr⟩
  · rw [hr] at hmem
    exact absurd hmem (by simp [textFailTrace])
  · rw [hr] at hmem ⊢
    cases hL : (theLoop form env scenes).result with
    | error e2 =>
      rw [afterText_error form env scenes e2 hL] at hmem ⊢
      simp only [List.mem_cons] at hmem
      have hmem2 : Request.imgReqWithPhoto i ∈ (theLoop form env scenes).requests := by
        rcases hmem with hmem | hmem
        · exact absurd hmem (by simp)
        · exact hmem
      have hc : (theLoop form env scenes).requests.count
          (Request.imgReqWithoutPhoto i) = 1 :=
        imageLoop_fallback_count env (totalStepsOf form)
          (PlanResolver.resolve form.storyLength).scenes scenes 0 1 i hmem2 h1
      constructor
      · simp only [List.count_cons, hc]
        simp
      · intro h2
        obtain ⟨hres, hk⟩ := imageLoop_bothFail env (totalStepsOf form)
          (PlanResolver.resolve form.storyLength).scenes scenes 0 1 i hmem2 h1 h2
        have hres2 : (theLoop form env scenes).result =
            Except.error PipelineError.imageGenerationError := hres
        rw [hL] at hres2
        simp only [Except.error.injEq] at hres2
        refine ⟨by simp only; rw [hres2], ?_⟩
        intro k hkk
        obtain ⟨hka, hkb⟩ := hk k hkk
        constructor
        · intro hmm
          simp only [List.mem_cons] at hmm
          rcases hmm with hmm | hmm
          · exact absurd hmm (by simp)
          · exact hka hmm
        · intro hmm
          simp only [List.mem_cons] at hmm
          rcases hmm with hmm | hmm
          · exact absurd hmm (by simp)
          · exact hkb hmm
    | ok urls =>
      rw [afterText_ok form env scenes urls hlen hL] at hmem ⊢
      simp only [List.mem_cons, List.mem_append] at hmem
      have hmem2 : Request.imgReqWithPhoto i ∈ (theLoop form env scenes).requests := by
        rcases hmem with hmem | hmem | hmem
        · exact absurd hmem (by simp)
        · exact hmem
        · exact absurd hmem (by simp)
      have hc : (theLoop form env scenes).requests.count
          (Request.imgReqWithoutPhoto i) = 1 :=
        imageLoop_fallback_count env (totalStepsOf form)
          (PlanResolver.resolve form.storyLength).scenes scenes 0 1 i hmem2 h1
      constructor
      · simp only [List.count_cons, List.count_append, hc]
        simp
      · intro h2
        obtain ⟨hres, _⟩ := imageLoop_bothFail env (totalStepsOf form)
          (PlanResolver.resolve form.storyLength).scenes scenes 0 1 i hmem2 h1 h2
        have hres2 : (theLoop form env scenes).result =
            Except.error PipelineError.imageGenerationError := hres
        rw [hL] at hres2
        simp at hres2

/-- Witness for C2: a run whose image responses never carry content fails
at scene 0 with the image-generation error after exactly one fallback, and
scene 1 is never attempted. -/
theorem claim_C2_witness :
    (generateStoryWithImage form0 envBothBlank).requests.count
      (Request.imgReqWithoutPhoto 0) = 1 ∧
    (generateStoryWithImage form0 envBothBlank).result =
      Except.error PipelineError.imageGenerationError ∧
    Request.imgReqWithPhoto 1 ∉
      (generateStoryWithImage form0 envBothBlank).requests := by
  have h := claim_C2 form0 envBothBlank 0 (by decide) rfl
  exact ⟨h.1, (h.2 rfl).1, ((h.2 rfl).2 1 (by decide)).1⟩

/-! Remapping every declared media type leaves the whole run unchanged. -/

theorem respParts_mapMime (f : String → String) (r : GenResponse) :
    respParts (mapMimeResp f r) =
      (respParts r).map (List.map (mapMimePart f)) := by
  obtain ⟨cs⟩ := r
  cases cs with
  | none => rfl
  | some l =>
    cases l with
    | nil => rfl
    | cons c t =>
      obtain ⟨ct⟩ := c
      cases ct with
      | none => rfl
      | some co =>
        obtain ⟨pp⟩ := co
        cases pp with
        | none => rfl
        | some ps => rfl

theorem firstInline_mapMime (f : String → String) (ps : List Part) :
    firstInline (ps.map (mapMimePart f)) =
      (firstInline ps).map (mapMimeInline f) := by
  induction ps with
  | nil => rfl
  | cons p t ih =>
    obtain ⟨pd, pt⟩ := p
    cases pd with
    | none => simpa [firstInline, mapMimePart] using ih
    | some d => rfl

theorem audioExtract_mapMime (f : String → String) (r : GenResponse) :
    audioExtract (mapMimeResp f r) = audioExtract r := by
  unfold audioExtract
  rw [respParts_mapMime]
  cases h : respParts r with
  | none => rfl
  | some ps =>
    cases ps with
    | nil => rfl
    | cons p t =>
      obtain ⟨pd, pt⟩ := p
      cases pd <;> rfl

theorem finishScene_mapMime (f : String → String) (reqs : List Request)
    (tS nS i step : Nat) (ps : List Part) :
    finishScene reqs tS nS i step (ps.map (mapMimePart f)) =
      finishScene reqs tS nS i step ps := by
  unfold finishScene
  rw [firstInline_mapMime]
  cases h : firstInline ps with
  | none => rfl
  | some d => rfl

theorem sceneStep_mapMime (f : String → String) (env : Env)
    (tS nS i step : Nat) (scene : String) :
    sceneStep (mapMimeEnv f env) tS nS i step scene =
      sceneStep env tS nS i step scene := by
  unfold sceneStep
  simp only [mapMimeEnv]
  rw [respParts_mapMime, respParts_mapMime]
  cases h1 : respParts (env.imgWithPhoto i) with
  | some ps => simp only [Option.map_some']; rw [finishScene_mapMime]
  | none =>
    simp only [Option.map_none']
    cases h2 : respParts (env.imgWithoutPhoto i) with
    | some ps => simp only [Option.map_some']; rw [finishScene_mapMime]
    | none => simp only [Option.map_none']

theorem imageLoop_mapMime (f : String → String) (env : Env) (tS nS : Nat) :
    ∀ (l : List String) (i step : Nat),
      imageLoop (mapMimeEnv f env) tS nS i step l =
        imageLoop env tS nS i step l := by
  intro l
  induction l with
  | nil => intro i step; rfl
  | cons s rest ih =>
    intro i step
    simp only [imageLoop, sceneStep_mapMime, ih]

theorem run_mapMime (f : String → String) (form : StoryFormData) (env : Env) :
    generateStoryWithImage form (mapMimeEnv f env) =
      generateStoryWithImage form env := by
  cases h : env.textScenes with
  | none =>
    rw [run_textNone form (mapMimeEnv f env) h, run_textNone form env h]
  | some scenes =>
    by_cases h2 : scenes.length = (PlanResolver.resolve form.storyLength).scenes
    · rw [run_goodLen form (mapMimeEnv f env) scenes h h2,
        run_goodLen form env scenes h h2]
      unfold afterText theLoop
      simp only [imageLoop_mapMime f env]
      simp only [mapMimeEnv, audioExtract_mapMime]
    · rw [run_badLen form (mapMimeEnv f env) scenes h h2,
        run_badLen form env scenes h h2]

/-- C10: every image stored by a successful run is declared as PNG — its URL
starts with the fixed prefix `data:image/png;base64,` — and remapping every
media type the provider declares changes nothing about the run: the declared
mime type of the image payloads is ignored. -/
theorem claim_C10 (form : StoryFormData) (env : Env) (f : String → String) :
    (∀ res, (generateStoryWithImage form env).result = Except.ok res →
      ∀ url ∈ res.imageUrls, ∃ s, url = "data:image/png;base64," ++ s) ∧
    generateStoryWithImage form (mapMimeEnv f env) =
      generateStoryWithImage form env := by
  constructor
  · intro res h url hu
    obtain ⟨scenes, urls, hs, hlen, hL, hres⟩ := run_ok_inversion form env res h
    subst hres
    simp only at hu
    obtain ⟨k, hk⟩ := List.mem_iff_getElem?.mp hu
    have hul : urls.length = scenes.length :=
      imageLoop_ok_length env (totalStepsOf form)
        (PlanResolver.resolve form.storyLength).scenes scenes 0 1 urls hL
    have hklen : k < scenes.length := by
      obtain ⟨hlt, _⟩ := List.getElem?_eq_some.mp hk
      omega
    obtain ⟨ps, d, _, _, hu2⟩ := imageLoop_ok_nth env (totalStepsOf form)
      (PlanResolver.resolve form.storyLength).scenes scenes 0 1 urls hL k hklen
    rw [hk] at hu2
    simp only [Option.some.injEq] at hu2
    exact ⟨d.data, hu2⟩
  · exact run_mapMime f form env

/-- Witness for C10: the concrete successful run's first image URL carries
the PNG prefix, and remapping every declared media type to `video/mp4`
leaves the run's trace unchanged. -/
theorem claim_C10_witness :
    (∃ s, ("data:image/png;base64,IMG" : String) =
      "data:image/png;base64," ++ s) ∧
    generateStoryWithImage form0 (mapMimeEnv (fun _ => "video/mp4") env0) =
      generateStoryWithImage form0 env0 := by
  have h := claim_C10 form0 env0 (fun _ => "video/mp4")
  exact ⟨h.1 res0 rfl "data:image/png;base64,IMG" (by decide), h.2⟩

end VecerniPohadka
